import Mathlib

/-
Verification of the Twilio SMS Gateway Odoo add-on (Twilio_SMS_Gateway_AE).

Shallow embedding of the dispatch engine: the Python models are translated
into Lean definitions.  Strings are modelled as `List Char`; the Twilio REST
transport is an explicit function parameter `tr` mapping a destination number
to the observed `Outcome` of the HTTP POST; the Odoo record store is passed
and returned explicitly.
-/

namespace TwilioGateway

/-- Outcome of one `requests.post` call to the Twilio Messages endpoint, as
observed by the send loops: HTTP 200/201 (`ok`), any other status with the
provider's error message (`rejected`), or a raised exception (`exn`). -/
inductive Outcome
  | ok (sid : String)
  | rejected (msg : String)
  | exn (msg : String)
  deriving DecidableEq

/-- Whether the call counts as a success, i.e. `response.status_code in (200, 201)`. -/
def Outcome.isOk : Outcome → Bool
  | .ok _ => true
  | _ => false

/-- Connection status selection of `twilio.config` (`twilio_config.py`). -/
inductive ConnStatus
  | unknown
  | connected
  | failed
  deriving DecidableEq

/-- The `twilio.config` record fields consumed by the dispatch code.  A missing
record (`search([], limit=1)` empty) is modelled as `Option.none` at use sites. -/
structure TwilioConfig where
  account_sid : String
  auth_token : String
  twilio_number : String
  whatsapp_number : String
  connection_status : ConnStatus
  deriving DecidableEq

/-- Python truthiness check of the three SMS credentials in
`TwilioSMS._send_to_twilio` (`not config.account_sid or ...`). -/
def credsMissing (cfg : TwilioConfig) : Bool :=
  cfg.account_sid.isEmpty || cfg.auth_token.isEmpty || cfg.twilio_number.isEmpty

/-- A usable provider configuration: a record exists, is connected, and all
three SMS credentials are non-blank. -/
def configOk (config : Option TwilioConfig) : Prop :=
  ∃ cfg, config = some cfg ∧ cfg.connection_status = ConnStatus.connected ∧
    credsMissing cfg = false

/-- The pre-flight configuration failure condition of
`TwilioSMS._send_to_twilio` steps 1: no record, not connected, or blank
credentials. -/
def configBad (config : Option TwilioConfig) : Prop :=
  match config with
  | none => True
  | some cfg => cfg.connection_status ≠ ConnStatus.connected ∨ credsMissing cfg = true

/-- States of a `twilio.sms` record.  The Python selection value `partial` is
named `partialSend` here. -/
inductive SmsState
  | draft
  | scheduled
  | sent
  | partialSend
  | failed
  deriving DecidableEq

/-- The `recipient_type` selection of `twilio.sms` and `twilio.whatsapp`. -/
inductive RecipientType
  | single
  | multi
  deriving DecidableEq

/-- A `twilio.sms` record (the fields read or written by the send path). -/
structure SmsJob where
  recipient_type : RecipientType
  recipient_single : List Char
  recipient_multi : List Char
  message_body : List Char
  schedule_datetime : Option Int
  state : SmsState
  sent_count : Nat
  failed_count : Nat
  deriving DecidableEq

/-- Python `str.strip()`: drop leading and trailing whitespace. -/
def trimChars (s : List Char) : List Char :=
  ((s.dropWhile Char.isWhitespace).reverse.dropWhile Char.isWhitespace).reverse

/-- Python `str.split(',')`: split on every comma, keeping empty pieces. -/
def splitComma : List Char → List (List Char)
  | [] => [[]]
  | c :: rest =>
    if c = ',' then [] :: splitComma rest
    else
      match splitComma rest with
      | [] => [[c]]
      | p :: ps => (c :: p) :: ps

/-- The effective multi-recipient list of `_send_to_twilio`:
`[x.strip() for x in self.recipient_multi.split(',') if x.strip()]`. -/
def numbersToSend (raw : List Char) : List (List Char) :=
  ((splitComma raw).map trimChars).filter (fun x => x ≠ [])

/-- The effective recipient list of one `_send_to_twilio` pass: the stripped
single number, or the comma-split blank-filtered multi list. -/
def effectiveRecipients (job : SmsJob) : List (List Char) :=
  match job.recipient_type with
  | .single => [trimChars job.recipient_single]
  | .multi => numbersToSend job.recipient_multi

/-- Step 7 of `_send_to_twilio`: final state from the two counters. -/
def classifySms (sentCount failedCount : Nat) : SmsState :=
  if 0 < sentCount ∧ failedCount = 0 then SmsState.sent
  else if 0 < sentCount ∧ 0 < failedCount then SmsState.partialSend
  else SmsState.failed

/-- The `UserError` pre-flight exceptions raised by `_send_to_twilio`. -/
inductive UserError
  | configureFirst
  | missingCredentials
  | enterMobileNumber
  | enterMobileNumbers
  deriving DecidableEq

/-- Message text recorded for one failed recipient (provider `message` field,
or `"Error " + str(e)` for an exception). -/
def failureMsg : Outcome → List Char
  | .ok _ => []
  | .rejected m => m.data
  | .exn m => (String.data "Error ") ++ m.data

/-- Accumulators of the send loop of `_send_to_twilio` (step 4):
`sent_numbers`, `failed_numbers` and `failed_log_lines`, in recipient order. -/
structure LoopResult where
  sentNumbers : List (List Char)
  failedNumbers : List (List Char)
  failedLogLines : List (List Char)
  deriving DecidableEq

/-- The per-recipient send loop of `_send_to_twilio`: each number is posted to
the transport; a 200/201 appends it to `sent_numbers`, anything else (other
status or exception) appends it to `failed_numbers` with a log line.  No
failure aborts the remaining recipients. -/
def sendLoop (tr : List Char → Outcome) : List (List Char) → LoopResult
  | [] => ⟨[], [], []⟩
  | n :: rest =>
    let r := sendLoop tr rest
    match tr n with
    | .ok _ => ⟨n :: r.sentNumbers, r.failedNumbers, r.failedLogLines⟩
    | o => ⟨r.sentNumbers, n :: r.failedNumbers,
        (n ++ (String.data ": ") ++ failureMsg o) :: r.failedLogLines⟩

/-- Status selection of an `sms.log` row. -/
inductive LogStatus
  | sent
  | failed
  deriving DecidableEq

/-- An `sms.log` row (`sms_log.py`), as created by the send paths. -/
structure SmsLogEntry where
  to_number : List Char
  message_body : List Char
  status : LogStatus
  source_model : String
  api_response : List Char
  deriving DecidableEq

/-- Python `sep.join(...)` over a list of strings. -/
def joinSep (sep : List Char) : List (List Char) → List Char
  | [] => []
  | [n] => n
  | n :: rest => n ++ sep ++ joinSep sep rest

/-- `source_model` tag written by `_send_to_twilio`. -/
def sourceModelOf : RecipientType → String
  | .single => "op_single"
  | .multi => "op_multi"

/-- Everything `_send_to_twilio` persists in one completed pass: the updated
job (counts and state), the `sms.log` rows created, the two number lists of
the loop, and the boolean the method returns. -/
structure SendPassResult where
  job : SmsJob
  logs : List SmsLogEntry
  sentNumbers : List (List Char)
  failedNumbers : List (List Char)
  returned : Bool
  deriving DecidableEq

/-- Steps 2-7 of `_send_to_twilio` after the pre-flight checks passed: every
effective recipient is attempted once, at most one batch `sms.log` row is
created for the successes and at most one for the failures, the counters are
set to the list lengths, and the state is classified from the counters. -/
def runPass (tr : List Char → Outcome) (job : SmsJob) : SendPassResult :=
  let numbers := effectiveRecipients job
  let r := sendLoop tr numbers
  let sentLogs : List SmsLogEntry :=
    if r.sentNumbers ≠ [] then
      [⟨joinSep [','] r.sentNumbers, job.message_body, LogStatus.sent,
        sourceModelOf job.recipient_type, String.data "Batch Sent Successfully"⟩]
    else []
  let failedLogs : List SmsLogEntry :=
    if r.failedNumbers ≠ [] then
      [⟨joinSep [','] r.failedNumbers, job.message_body, LogStatus.failed,
        sourceModelOf job.recipient_type, joinSep ['\n'] r.failedLogLines⟩]
    else []
  let sc := r.sentNumbers.length
  let fc := r.failedNumbers.length
  let st := classifySms sc fc
  ⟨{ job with sent_count := sc, failed_count := fc, state := st },
    sentLogs ++ failedLogs, r.sentNumbers, r.failedNumbers,
    (st == SmsState.sent) || (st == SmsState.partialSend)⟩

/-- `TwilioSMS._send_to_twilio` (`twilio_sms.py` lines 218-337): pre-flight
config and recipient checks raise a `UserError`; otherwise the pass of
`runPass` runs to completion. -/
def sendToTwilio (config : Option TwilioConfig) (tr : List Char → Outcome)
    (job : SmsJob) : Except UserError SendPassResult :=
  match config with
  | none => .error .configureFirst
  | some cfg =>
    if cfg.connection_status ≠ ConnStatus.connected then .error .configureFirst
    else if credsMissing cfg then .error .missingCredentials
    else if job.recipient_type = RecipientType.single ∧ job.recipient_single = [] then
      .error .enterMobileNumber
    else if job.recipient_type = RecipientType.multi ∧ job.recipient_multi = [] then
      .error .enterMobileNumbers
    else .ok (runPass tr job)

/-- Selection domain of `TwilioSMS._cron_send_scheduled_sms`:
`state = 'scheduled'` and `schedule_datetime <= now` (a NULL
`schedule_datetime` never satisfies the SQL comparison). -/
def cronSelected (now : Int) (j : SmsJob) : Bool :=
  (j.state == SmsState.scheduled) &&
    (match j.schedule_datetime with
     | some t => decide (t ≤ now)
     | none => false)

/-- One job of the cron sweep body: a selected job is executed via
`_send_to_twilio`; if that raises, the exception is caught and the job is
marked `failed` with nothing else touched.  An unselected job is untouched. -/
def cronStep (config : Option TwilioConfig) (tr : List Char → Outcome)
    (now : Int) (j : SmsJob) : SmsJob × List SmsLogEntry :=
  if cronSelected now j then
    match sendToTwilio config tr j with
    | .ok res => (res.job, res.logs)
    | .error _ => ({ j with state := SmsState.failed }, [])
  else (j, [])

/-- `TwilioSMS._cron_send_scheduled_sms` over the whole record store: every
job is either executed (if selected) or left untouched; the created `sms.log`
rows are collected. -/
def cronSweep (config : Option TwilioConfig) (tr : List Char → Outcome)
    (now : Int) : List SmsJob → List SmsJob × List SmsLogEntry
  | [] => ([], [])
  | j :: rest =>
    let s := cronStep config tr now j
    let r := cronSweep config tr now rest
    (s.1 :: r.1, s.2 ++ r.2)

/-- A `res.partner` group member, as read by `TwilioSmsGroup._send_one`:
display name, raw mobile, and the numeric phone code of its country (if any). -/
structure Partner where
  name : String
  mobile : List Char
  country_phone_code : Option Nat
  deriving DecidableEq

/-- `str(recipient.country_id.phone_code) if recipient.country_id else ""`. -/
def countryCodeStr (p : Partner) : List Char :=
  match p.country_phone_code with
  | some c => (Nat.repr c).data
  | none => []

/-- The number cleaning of `_send_one`:
`mobile.replace(" ", "").replace("-", "").replace("(", "").replace(")", "")`. -/
def cleanMobile (m : List Char) : List Char :=
  m.filter (fun c => !(c == ' ' || c == '-' || c == '(' || c == ')'))

/-- Whether `s` starts with the pattern `pat` (Python `str.startswith`). -/
def listStartsWith : List Char → List Char → Bool
  | [], _ => true
  | _ :: _, [] => false
  | p :: ps, c :: cs => (p == c) && listStartsWith ps cs

/-- The three-way prefixing of `_send_one` (lines 143-148): pass through a
`+`-number unchanged; if the cleaned number already starts with the country
code digits, prefix only `+`; otherwise prefix `+` and the country code. -/
def formatNumber (clean cc : List Char) : List Char :=
  if listStartsWith ['+'] clean then clean
  else if !cc.isEmpty && listStartsWith cc clean then '+' :: clean
  else '+' :: (cc ++ clean)

/-- The full normalization of one raw number in `_send_one` (lines 136-148):
an empty mobile is rejected; otherwise the number is cleaned of spaces,
hyphens and parentheses and then prefixed per `formatNumber`. -/
def normalizeNumber (raw cc : List Char) : Option (List Char) :=
  if raw = [] then none
  else some (formatNumber (cleanMobile raw) cc)

/-- The triple returned by `TwilioSmsGroup._send_one`: success flag, status
message, and the dialled number (or, for a member without a mobile, the
member's name — faithful to the source). -/
structure SendOneResult where
  success : Bool
  statusMsg : List Char
  phone : List Char
  deriving DecidableEq

/-- `TwilioSmsGroup._send_one`: skip members without a mobile, otherwise
normalize the number and post it to the transport. -/
def sendOne (tr : List Char → Outcome) (p : Partner) : SendOneResult :=
  if p.mobile = [] then ⟨false, String.data "No Mobile", p.name.data⟩
  else
    let formatted := formatNumber (cleanMobile p.mobile) (countryCodeStr p)
    match tr formatted with
    | .ok _ => ⟨true, String.data "Sent", formatted⟩
    | .rejected m => ⟨false, (String.data "Failed ") ++ m.data, formatted⟩
    | .exn m => ⟨false, (String.data "Error: ") ++ m.data, formatted⟩

/-- States of a `twilio.sms.group` record: the selection has no `partial`
value. -/
inductive GroupState
  | draft
  | scheduled
  | sent
  | failed
  deriving DecidableEq

/-- A `twilio.sms.group` record (fields read or written by the send path). -/
structure GroupJob where
  name : List Char
  message_body_group : List Char
  recipient_ids : List Partner
  schedule_datetime : Option Int
  state : GroupState
  deriving DecidableEq

/-- `UserError` exceptions raised pre-flight by `_send_now_execute`. -/
inductive GroupError
  | addRecipients
  | notConnected
  deriving DecidableEq

/-- The recipient loop of `_send_now_execute`: success count and the
collected truthy phone values, in recipient order. -/
def groupLoop (tr : List Char → Outcome) : List Partner → Nat × List (List Char)
  | [] => (0, [])
  | p :: rest =>
    let one := sendOne tr p
    let r := groupLoop tr rest
    ((if one.success then 1 else 0) + r.1,
     if one.phone ≠ [] then one.phone :: r.2 else r.2)

/-- Result of one completed `_send_now_execute` pass. -/
structure GroupResult where
  job : GroupJob
  log : SmsLogEntry
  successCount : Nat
  deriving DecidableEq

/-- `TwilioSmsGroup._send_now_execute` (lines 209-267): pre-flight checks for
recipients and connection; one pass over the members; exactly one `sms.log`
row for the whole batch; final state `sent` only when every member succeeded,
otherwise `failed` (the model has no `partial` group state, as the source). -/
def groupExecute (config : Option TwilioConfig) (tr : List Char → Outcome)
    (g : GroupJob) : Except GroupError GroupResult :=
  if g.recipient_ids = [] then .error .addRecipients
  else
    match config with
    | none => .error .notConnected
    | some cfg =>
      if cfg.connection_status ≠ ConnStatus.connected then .error .notConnected
      else
        let r := groupLoop tr g.recipient_ids
        let st := if r.1 = g.recipient_ids.length then GroupState.sent else GroupState.failed
        .ok ⟨{ g with state := st },
          ⟨joinSep (',' :: [' ']) r.2, g.message_body_group,
           (if 0 < r.1 then LogStatus.sent else LogStatus.failed),
           "twilio.sms.group", []⟩,
          r.1⟩

/-- States of a `twilio.whatsapp` record: only `draft`, `sent`, `failed`. -/
inductive WaState
  | draft
  | sent
  | failed
  deriving DecidableEq

/-- A `twilio.whatsapp` record (fields read or written by the send path). -/
structure WaJob where
  recipient_type : RecipientType
  recipient_single : List Char
  recipient_multi : List Char
  message_body : List Char
  state : WaState
  deriving DecidableEq

/-- `UserError` exceptions raised pre-flight by `action_send_whatsapp`. -/
inductive WaError
  | notConnected
  | noWhatsAppNumber
  | enterNumber
  | enterNumbers
  deriving DecidableEq

/-- The channel address written into the payload: `To = f"whatsapp:{number}"`. -/
def waAddress (n : List Char) : List Char :=
  (String.data "whatsapp:") ++ n

/-- The effective number list prepared by `action_send_whatsapp` (the single
number is appended unstripped; the multi field is split like the SMS model). -/
def waNumbers (j : WaJob) : List (List Char) :=
  match j.recipient_type with
  | .single => [j.recipient_single]
  | .multi => numbersToSend j.recipient_multi

/-- The send loop of `action_send_whatsapp`: count of 200/201 responses over
the channel-prefixed numbers. -/
def waLoop (tr : List Char → Outcome) : List (List Char) → Nat
  | [] => 0
  | n :: rest => (if (tr (waAddress n)).isOk then 1 else 0) + waLoop tr rest

/-- Result of one completed `action_send_whatsapp` pass: the updated record,
the success count and the number of recipients attempted. -/
structure WaResult where
  job : WaJob
  successCount : Nat
  total : Nat
  deriving DecidableEq

/-- `TwilioWhatsApp.action_send_whatsapp` (lines 29-90): config pre-flight
(including the WhatsApp sender number), number preparation, the send loop,
and the final state: `sent` when the success count equals the recipient
count, otherwise `failed` (no `partial` value exists on this model). -/
def whatsappSend (config : Option TwilioConfig) (tr : List Char → Outcome)
    (j : WaJob) : Except WaError WaResult :=
  match config with
  | none => .error .notConnected
  | some cfg =>
    if cfg.connection_status ≠ ConnStatus.connected then .error .notConnected
    else if cfg.whatsapp_number.isEmpty then .error .noWhatsAppNumber
    else if j.recipient_type = RecipientType.single ∧ j.recipient_single = [] then
      .error .enterNumber
    else if j.recipient_type = RecipientType.multi ∧ j.recipient_multi = [] then
      .error .enterNumbers
    else
      let numbers := waNumbers j
      let succ := waLoop tr numbers
      let st := if succ = numbers.length then WaState.sent else WaState.failed
      .ok ⟨{ j with state := st }, succ, numbers.length⟩

/-- Opening placeholder delimiter of the template language. -/
def lbrace : Char := Char.ofNat 123

/-- Closing placeholder delimiter of the template language. -/
def rbrace : Char := Char.ofNat 125

/-- Errors of the template renderer: a placeholder whose name is not a
context key (Python `KeyError`), or an unterminated opening delimiter
(Python `ValueError`). -/
inductive RenderError
  | missingKey (k : String)
  | unterminated
  deriving DecidableEq

/-- Keyword lookup of Python `template.format(**data)`: first binding of the
key in the context. -/
def lookupCtx (k : String) : List (String × String) → Option String
  | [] => none
  | p :: rest => if p.1 = k then some p.2 else lookupCtx k rest

/-- The placeholder substitution performed by `template.format(**data)` in
`SaleOrder._prepare_sms_data` and `_compute_preview_message`, as a single
pass over the template recognizing brace-delimited `name` tokens (spec 4.1
and 9): each placeholder is replaced by the value bound to its name, a
missing name fails naming that key, and a substituted value is never
re-scanned.  The `fuel` argument only bounds the recursion (one unit per
leading character consumed); callers pass the template length, which always
suffices, so the fuel-exhaustion branch is unreachable from `render`. -/
def renderFuel (ctx : List (String × String)) :
    Nat → List Char → Except RenderError (List Char)
  | _, [] => .ok []
  | 0, _ :: _ => .error .unterminated
  | fuel + 1, c :: rest =>
    if c = lbrace then
      match rest.dropWhile (fun d => !(d == rbrace)) with
      | [] => .error .unterminated
      | _ :: tail =>
        match lookupCtx (String.mk (rest.takeWhile (fun d => !(d == rbrace)))) ctx with
        | none => .error (.missingKey (String.mk (rest.takeWhile (fun d => !(d == rbrace)))))
        | some v => (renderFuel ctx fuel tail).map (fun out => v.data ++ out)
    else (renderFuel ctx fuel rest).map (fun out => c :: out)

/-- The renderer over a template, with sufficient fuel supplied. -/
def render (t : List Char) (ctx : List (String × String)) :
    Except RenderError (List Char) :=
  renderFuel ctx t.length t

/-- Whether every opening delimiter of the template is terminated (Python
`format` raises `ValueError` otherwise); same recursion as `renderFuel`. -/
def wellFormedFuel : Nat → List Char → Bool
  | _, [] => true
  | 0, _ :: _ => false
  | fuel + 1, c :: rest =>
    if c = lbrace then
      match rest.dropWhile (fun d => !(d == rbrace)) with
      | [] => false
      | _ :: tail => wellFormedFuel fuel tail
    else wellFormedFuel fuel rest

/-- Well-formedness of a template, with sufficient fuel supplied. -/
def wellFormed (t : List Char) : Bool :=
  wellFormedFuel t.length t

/-- The names of the terminated placeholders of a template, in order; same
recursion as `renderFuel`. -/
def placeholdersFuel : Nat → List Char → List String
  | _, [] => []
  | 0, _ :: _ => []
  | fuel + 1, c :: rest =>
    if c = lbrace then
      match rest.dropWhile (fun d => !(d == rbrace)) with
      | [] => []
      | _ :: tail =>
        String.mk (rest.takeWhile (fun d => !(d == rbrace))) :: placeholdersFuel fuel tail
    else placeholdersFuel fuel rest

/-- The placeholder names of a template, with sufficient fuel supplied. -/
def placeholders (t : List Char) : List String :=
  placeholdersFuel t.length t

/-- The fixed illustrative context of
`SaleOrderSMSConfig._compute_preview_message` (lines 55-65). -/
def sampleData : List (String × String) :=
  [("partner_name", "John Doe"),
   ("order_name", "SO001"),
   ("amount_total", "1,250.00"),
   ("date_order", "2025-01-15"),
   ("user_name", "Sales Manager"),
   ("company_name", "Your Company"),
   ("order_state", "Confirmed"),
   ("product_names", "Product A, Product B"),
   ("currency", "$")]

/-- `SaleOrder._prepare_sms_data` (lines 133-161): the production render.  The
order's data dict (built from the order fields at lines 144-154) is the
context; a `KeyError` of `format` is re-raised as a `UserError` naming the
missing placeholder, modelled by the `missingKey` error value. -/
def prepareSmsData (template : List Char) (ctx : List (String × String)) :
    Except RenderError (List Char) :=
  render template ctx

/-- `SaleOrderSMSConfig._compute_preview_message` (lines 50-71): an empty
template previews as the empty string; a `KeyError` of the same renderer
degrades to the inline text `"Error in template: Invalid placeholder <key>"`;
any other renderer failure propagates (Python catches only `KeyError`). -/
def computePreviewMessage (template : List Char) : Except RenderError (List Char) :=
  if template = [] then .ok []
  else
    match render template sampleData with
    | .ok m => .ok m
    | .error (.missingKey k) =>
      .ok ((String.data "Error in template: Invalid placeholder ") ++ k.data)
    | .error .unterminated => .error .unterminated

/-- The `sale.order` state selection values relevant to the SMS actions. -/
inductive OrderState
  | draft
  | sent
  | sale
  | done
  | cancel
  deriving DecidableEq

/-- A `sale.order` record as read by the SMS path: its confirmation state,
the customer's mobile and phone, the data context built by
`_prepare_sms_data` (lines 144-154) from the order fields, and the
`sms_sent` guard flag. -/
structure SaleOrder where
  order_name : String
  order_state : OrderState
  partner_mobile : List Char
  partner_phone : List Char
  ctx : List (String × String)
  sms_sent : Bool
  deriving DecidableEq

/-- A `sale.order.sms.config` record: the enable flag, the template and the
two statistics counters. -/
structure SaleSmsConfig where
  is_active : Bool
  message_template : List Char
  total_sent : Nat
  total_failed : Nat
  deriving DecidableEq

/-- `SaleOrderSMSConfig.get_active_config`: the first record with
`is_active = True`, if any. -/
def getActiveConfig (cfgs : List SaleSmsConfig) : Option SaleSmsConfig :=
  cfgs.find? (fun c => c.is_active)

/-- Everything `SaleOrder._send_order_confirmation_sms` produces: the boolean
it returns, the (possibly updated) order, the (possibly updated) active
config record, the `sms.log` rows created, and the number of HTTP calls
attempted. -/
structure OrderSendResult where
  success : Bool
  order : SaleOrder
  smsConfig : Option SaleSmsConfig
  logs : List SmsLogEntry
  httpCalls : Nat
  deriving DecidableEq

/-- `SaleOrder._send_order_confirmation_sms` (lines 163-283): returns `False`
without side effects when there is no active config, when `sms_sent` is
already set, when the customer has no number, when the Twilio config is
absent, disconnected or incomplete, or when the template render fails; else
one HTTP call is made, one `sms.log` row is created, a success sets
`sms_sent` and bumps `total_sent`, a failure bumps `total_failed`. -/
def sendOrderConfirmationSms (cfgs : List SaleSmsConfig)
    (twilioConfig : Option TwilioConfig) (tr : Outcome) (o : SaleOrder) :
    OrderSendResult :=
  match getActiveConfig cfgs with
  | none => ⟨false, o, none, [], 0⟩
  | some sc =>
    if o.sms_sent then ⟨false, o, some sc, [], 0⟩
    else if o.partner_mobile = [] ∧ o.partner_phone = [] then ⟨false, o, some sc, [], 0⟩
    else
      match twilioConfig with
      | none => ⟨false, o, some sc, [], 0⟩
      | some tc =>
        if tc.connection_status ≠ ConnStatus.connected then ⟨false, o, some sc, [], 0⟩
        else if credsMissing tc then ⟨false, o, some sc, [], 0⟩
        else
          match prepareSmsData sc.message_template o.ctx with
          | .error _ => ⟨false, o, some sc, [], 0⟩
          | .ok body =>
            let recipient :=
              trimChars (if o.partner_mobile ≠ [] then o.partner_mobile else o.partner_phone)
            match tr with
            | .ok sid =>
              ⟨true, { o with sms_sent := true },
               some { sc with total_sent := sc.total_sent + 1 },
               [⟨recipient, body, LogStatus.sent, "sale.order", sid.data⟩], 1⟩
            | .rejected m =>
              ⟨false, o, some { sc with total_failed := sc.total_failed + 1 },
               [⟨recipient, body, LogStatus.failed, "sale.order", m.data⟩], 1⟩
            | .exn m =>
              ⟨false, o, some { sc with total_failed := sc.total_failed + 1 },
               [⟨recipient, body, LogStatus.failed, "sale.order",
                 (String.data "Error: ") ++ m.data⟩], 1⟩

/-- Repeated confirmation of one order (`action_confirm` calls
`_send_order_confirmation_sms` once per confirmation; its exceptions are
swallowed).  The transport outcome may differ per attempt; the pair returned
is the final order and the number of successful sends. -/
def repeatConfirm (cfgs : List SaleSmsConfig) (twilioConfig : Option TwilioConfig)
    (trs : Nat → Outcome) : Nat → SaleOrder → SaleOrder × Nat
  | 0, o => (o, 0)
  | n + 1, o =>
    let r := sendOrderConfirmationSms cfgs twilioConfig (trs n) o
    let rest := repeatConfirm cfgs twilioConfig trs n r.order
    (rest.1, (if r.success then 1 else 0) + rest.2)

/-- The `UserError` of `action_send_sms_manually` for unconfirmed orders. -/
inductive ManualError
  | onlyConfirmedOrders
  deriving DecidableEq

/-- `SaleOrder.action_send_sms_manually` (lines 299-309): only for orders in
state `sale` or `done`; clears `sms_sent` and then runs the confirmation
send. -/
def actionSendSmsManually (cfgs : List SaleSmsConfig)
    (twilioConfig : Option TwilioConfig) (tr : Outcome) (o : SaleOrder) :
    Except ManualError OrderSendResult :=
  if o.order_state ≠ OrderState.sale ∧ o.order_state ≠ OrderState.done then
    .error .onlyConfirmedOrders
  else
    .ok (sendOrderConfirmationSms cfgs twilioConfig tr { o with sms_sent := false })

/-- A connected configuration with all credentials present (witness input). -/
def wcfg : TwilioConfig := ⟨"AC1", "token", "+1000", "+2000", ConnStatus.connected⟩

/-- The same configuration with a failed connectivity test (witness input). -/
def wcfgDisconnected : TwilioConfig := { wcfg with connection_status := ConnStatus.failed }

/-- A transport that accepts every message (witness input). -/
def trOk : List Char → Outcome := fun _ => Outcome.ok "SM1"

/-- A transport that rejects exactly the number `+2` (witness input). -/
def trFailPlusTwo : List Char → Outcome := fun n =>
  if n = String.data "+2" then Outcome.rejected "Invalid number" else Outcome.ok "SM1"

/-- A draft multi job with three recipients (witness input). -/
def wjobMulti3 : SmsJob :=
  ⟨RecipientType.multi, [], String.data "+1,+2,+3", String.data "hi", none,
   SmsState.draft, 0, 0⟩

/-- A draft multi job whose raw recipient text is non-empty but splits to zero
entries (witness input). -/
def wjobCommaOnly : SmsJob :=
  ⟨RecipientType.multi, [], String.data ", ,", String.data "hi", none,
   SmsState.draft, 0, 0⟩

/-- A scheduled single job due at time 9 (witness input). -/
def wjobSchedDue : SmsJob :=
  ⟨RecipientType.single, String.data "+15551234567", [], String.data "hi", some 9,
   SmsState.scheduled, 0, 0⟩

/-- The same job scheduled at time 11 instead (witness input). -/
def wjobSchedLate : SmsJob := { wjobSchedDue with schedule_datetime := some 11 }

/-- A two-member group whose second member's number is rejected by
`trFailPlusTwo` (witness input). -/
def wgroup : GroupJob :=
  ⟨String.data "Vip", String.data "hello",
   [⟨"Alice", String.data "+1", none⟩, ⟨"Bob", String.data "+2", none⟩],
   none, GroupState.draft⟩

/-- A WhatsApp job with two numbers (witness input). -/
def wwa : WaJob :=
  ⟨RecipientType.multi, [], String.data "+1,+2", String.data "hi", WaState.draft⟩

/-- A template with two placeholders (witness input). -/
def wtemplate : List Char := String.data "Hi {name}, order {order} confirmed."

/-- A context covering both placeholders of `wtemplate` (witness input). -/
def wctx : List (String × String) := [("name", "Alice"), ("order", "SO100")]

/-- An active sale-order SMS configuration (witness input). -/
def wsmsCfg : SaleSmsConfig := ⟨true, String.data "Hi {name}", 0, 0⟩

/-- A confirmed sale order, SMS not yet sent (witness input). -/
def worder : SaleOrder :=
  ⟨"SO100", OrderState.sale, String.data "+15551234567", [],
   [("name", "Alice")], false⟩

/-- The same order with the `sms_sent` flag already set (witness input). -/
def worderSent : SaleOrder := { worder with sms_sent := true }

theorem length_filter_add_length_filter_not {α : Type} (p : α → Bool) (l : List α) :
    (l.filter p).length + (l.filter (fun a => !(p a))).length = l.length := by
  induction l with
  | nil => rfl
  | cons a l ih => cases hpa : p a <;> simp [List.filter_cons, hpa] <;> omega

theorem sendLoop_sentNumbers (tr : List Char → Outcome) (ns : List (List Char)) :
    (sendLoop tr ns).sentNumbers = ns.filter (fun n => (tr n).isOk) := by
  induction ns with
  | nil => rfl
  | cons n rest ih => cases htr : tr n <;> simp [sendLoop, htr, Outcome.isOk, ih]

theorem sendLoop_failedNumbers (tr : List Char → Outcome) (ns : List (List Char)) :
    (sendLoop tr ns).failedNumbers = ns.filter (fun n => !(tr n).isOk) := by
  induction ns with
  | nil => rfl
  | cons n rest ih => cases htr : tr n <;> simp [sendLoop, htr, Outcome.isOk, ih]

theorem runPass_sentNumbers (tr : List Char → Outcome) (job : SmsJob) :
    (runPass tr job).sentNumbers = (effectiveRecipients job).filter (fun n => (tr n).isOk) := by
  simp [runPass, sendLoop_sentNumbers]

theorem runPass_failedNumbers (tr : List Char → Outcome) (job : SmsJob) :
    (runPass tr job).failedNumbers = (effectiveRecipients job).filter (fun n => !(tr n).isOk) := by
  simp [runPass, sendLoop_failedNumbers]

theorem runPass_sent_count (tr : List Char → Outcome) (job : SmsJob) :
    (runPass tr job).job.sent_count = (runPass tr job).sentNumbers.length := rfl

theorem runPass_failed_count (tr : List Char → Outcome) (job : SmsJob) :
    (runPass tr job).job.failed_count = (runPass tr job).failedNumbers.length := rfl

theorem runPass_state (tr : List Char → Outcome) (job : SmsJob) :
    (runPass tr job).job.state
      = classifySms (runPass tr job).sentNumbers.length (runPass tr job).failedNumbers.length := rfl

theorem runPass_schedule (tr : List Char → Outcome) (job : SmsJob) :
    (runPass tr job).job.schedule_datetime = job.schedule_datetime := rfl

theorem runPass_logs_length (tr : List Char → Outcome) (job : SmsJob) :
    (runPass tr job).logs.length
      = (if (runPass tr job).sentNumbers = [] then 0 else 1)
        + (if (runPass tr job).failedNumbers = [] then 0 else 1) := by
  simp only [runPass]
  split_ifs <;> simp_all

theorem sendToTwilio_ok_inv (config : Option TwilioConfig) (tr : List Char → Outcome)
    (job : SmsJob) (res : SendPassResult) (h : sendToTwilio config tr job = Except.ok res) :
    res = runPass tr job := by
  cases config with
  | none => simp [sendToTwilio] at h
  | some cfg =>
    simp only [sendToTwilio] at h
    split_ifs at h <;> simp_all

theorem sendToTwilio_ok_of (config : Option TwilioConfig) (tr : List Char → Outcome)
    (job : SmsJob) (h : configOk config)
    (h1 : ¬(job.recipient_type = RecipientType.single ∧ job.recipient_single = []))
    (h2 : ¬(job.recipient_type = RecipientType.multi ∧ job.recipient_multi = [])) :
    sendToTwilio config tr job = Except.ok (runPass tr job) := by
  obtain ⟨cfg, rfl, hconn, hcred⟩ := h
  simp [sendToTwilio, hconn, hcred, h1, h2]

/-- Claim C2: after a completed `_send_to_twilio` pass, `sent_count` plus
`failed_count` equals the number of effective recipients (the comma-split,
blank-filtered list): every recipient is counted in exactly one counter. -/
theorem claim_C2 (config : Option TwilioConfig) (tr : List Char → Outcome)
    (job : SmsJob) (res : SendPassResult)
    (h : sendToTwilio config tr job = Except.ok res) :
    res.job.sent_count + res.job.failed_count = (effectiveRecipients job).length := by
  rw [sendToTwilio_ok_inv config tr job res h]
  rw [runPass_sent_count, runPass_failed_count, runPass_sentNumbers, runPass_failedNumbers]
  exact length_filter_add_length_filter_not _ _

/-- Witness for C2 at a concrete run: three recipients, one rejected. -/
theorem claim_C2_witness :
    (runPass trFailPlusTwo wjobMulti3).job.sent_count
      + (runPass trFailPlusTwo wjobMulti3).job.failed_count
      = (effectiveRecipients wjobMulti3).length :=
  claim_C2 (some wcfg) trFailPlusTwo wjobMulti3 (runPass trFailPlusTwo wjobMulti3) (by rfl)

theorem groupLoop_successCount (tr : List Char → Outcome) (ps : List Partner) :
    (groupLoop tr ps).1 = ps.countP (fun p => (sendOne tr p).success) := by
  induction ps with
  | nil => rfl
  | cons p rest ih =>
    simp only [groupLoop, List.countP_cons, ih]
    cases (sendOne tr p).success <;> simp <;> omega

theorem groupExecute_ok_inv (config : Option TwilioConfig) (tr : List Char → Outcome)
    (g : GroupJob) (res : GroupResult) (h : groupExecute config tr g = Except.ok res) :
    res.successCount = (groupLoop tr g.recipient_ids).1 ∧
    res.job.state
      = (if (groupLoop tr g.recipient_ids).1 = g.recipient_ids.length
         then GroupState.sent else GroupState.failed) ∧
    res.job.recipient_ids = g.recipient_ids := by
  cases config with
  | none =>
    simp only [groupExecute] at h
    split at h <;> simp at h
  | some cfg =>
    simp only [groupExecute] at h
    split at h
    · simp at h
    · split at h
      · simp at h
      · injection h with h
        subst h
        exact ⟨rfl, rfl, rfl⟩

theorem waLoop_count (tr : List Char → Outcome) (ns : List (List Char)) :
    waLoop tr ns = ns.countP (fun n => (tr (waAddress n)).isOk) := by
  induction ns with
  | nil => rfl
  | cons n rest ih =>
    simp only [waLoop, List.countP_cons, ih]
    cases (tr (waAddress n)).isOk <;> simp <;> omega

theorem whatsappSend_ok_inv (config : Option TwilioConfig) (tr : List Char → Outcome)
    (j : WaJob) (res : WaResult) (h : whatsappSend config tr j = Except.ok res) :
    res.successCount = waLoop tr (waNumbers j) ∧
    res.total = (waNumbers j).length ∧
    res.job.state
      = (if waLoop tr (waNumbers j) = (waNumbers j).length
         then WaState.sent else WaState.failed) := by
  cases config with
  | none => simp [whatsappSend] at h
  | some cfg =>
    simp only [whatsappSend] at h
    split at h
    · simp at h
    · split at h
      · simp at h
      · split at h
        · simp at h
        · split at h
          · simp at h
          · injection h with h
            subst h
            exact ⟨rfl, rfl, rfl⟩

/-- Claim C1 (amended): single/multi SMS passes with at least one recipient
follow the three-way rule (all succeeded gives `sent`, none succeeded gives
`failed`, mixed gives `partialSend`); group SMS and WhatsApp passes have no
`partial` state and assign `sent` exactly when every recipient succeeded,
`failed` otherwise — mixed outcomes yield `failed` there. -/
theorem claim_C1 :
    (∀ (config : Option TwilioConfig) (tr : List Char → Outcome) (job : SmsJob)
       (res : SendPassResult), sendToTwilio config tr job = Except.ok res →
       effectiveRecipients job ≠ [] →
       ((∀ n ∈ effectiveRecipients job, (tr n).isOk = true) → res.job.state = SmsState.sent) ∧
       ((∀ n ∈ effectiveRecipients job, (tr n).isOk = false) → res.job.state = SmsState.failed) ∧
       ((∃ n ∈ effectiveRecipients job, (tr n).isOk = true) →
        (∃ n ∈ effectiveRecipients job, (tr n).isOk = false) →
        res.job.state = SmsState.partialSend)) ∧
    (∀ (config : Option TwilioConfig) (tr : List Char → Outcome) (g : GroupJob)
       (res : GroupResult), groupExecute config tr g = Except.ok res →
       ((∀ p ∈ g.recipient_ids, (sendOne tr p).success = true) → res.job.state = GroupState.sent) ∧
       ((∃ p ∈ g.recipient_ids, (sendOne tr p).success = false) → res.job.state = GroupState.failed)) ∧
    (∀ (config : Option TwilioConfig) (tr : List Char → Outcome) (j : WaJob)
       (res : WaResult), whatsappSend config tr j = Except.ok res →
       ((∀ n ∈ waNumbers j, (tr (waAddress n)).isOk = true) → res.job.state = WaState.sent) ∧
       ((∃ n ∈ waNumbers j, (tr (waAddress n)).isOk = false) → res.job.state = WaState.failed)) := by
  refine ⟨?_, ?_, ?_⟩
  · intro config tr job res h hne
    rw [sendToTwilio_ok_inv config tr job res h]
    rw [runPass_state, runPass_sentNumbers, runPass_failedNumbers]
    refine ⟨?_, ?_, ?_⟩
    · intro hall
      have hf : (effectiveRecipients job).filter (fun n => !(tr n).isOk) = [] := by
        rw [List.filter_eq_nil_iff]
        intro a ha
        simp [hall a ha]
      have hs : (effectiveRecipients job).filter (fun n => (tr n).isOk)
          = effectiveRecipients job := by
        rw [List.filter_eq_self]
        intro a ha
        exact hall a ha
      rw [hf, hs]
      have hpos : 0 < (effectiveRecipients job).length := List.length_pos.mpr hne
      simp [classifySms, hpos]
    · intro hnone
      have hs : (effectiveRecipients job).filter (fun n => (tr n).isOk) = [] := by
        rw [List.filter_eq_nil_iff]
        intro a ha
        simp [hnone a ha]
      rw [hs]
      simp [classifySms]
    · rintro ⟨n1, hn1, hok1⟩ ⟨n2, hn2, hok2⟩
      have hspos : 0 < ((effectiveRecipients job).filter (fun n => (tr n).isOk)).length := by
        apply List.length_pos.mpr
        intro hnil
        have := List.filter_eq_nil_iff.mp hnil n1 hn1
        simp [hok1] at this
      have hfpos : 0 < ((effectiveRecipients job).filter (fun n => !(tr n).isOk)).length := by
        apply List.length_pos.mpr
        intro hnil
        have := List.filter_eq_nil_iff.mp hnil n2 hn2
        simp [hok2] at this
      simp [classifySms, hspos, hfpos, Nat.pos_iff_ne_zero.mp hfpos]
  · intro config tr g res h
    obtain ⟨hsucc, hstate, hrec⟩ := groupExecute_ok_inv config tr g res h
    rw [groupLoop_successCount] at hstate
    constructor
    · intro hall
      rw [hstate, if_pos (List.countP_eq_length.mpr hall)]
    · rintro ⟨p, hp, hfail⟩
      rw [hstate, if_neg]
      intro heq
      have := List.countP_eq_length.mp heq p hp
      simp [hfail] at this
  · intro config tr j res h
    obtain ⟨hsucc, htot, hstate⟩ := whatsappSend_ok_inv config tr j res h
    rw [waLoop_count] at hstate
    constructor
    · intro hall
      rw [hstate, if_pos (List.countP_eq_length.mpr hall)]
    · rintro ⟨n, hn, hfail⟩
      rw [hstate, if_neg]
      intro heq
      have := List.countP_eq_length.mp heq n hn
      simp [hfail] at this

/-- Counterexample to C1 as stated: a group pass over two members in which
exactly one succeeds (mixed outcomes) ends in state `failed`, not `partial`
— the group model's state selection has no `partial` value at all. -/
theorem claim_C1_counterexample :
    (groupExecute (some wcfg) trFailPlusTwo wgroup).map
        (fun r => (r.successCount, r.job.recipient_ids.length, r.job.state))
      = Except.ok (1, 2, GroupState.failed) := by rfl

/-- Witness for C1 (amended) at a concrete mixed single/multi SMS pass. -/
theorem claim_C1_witness :
    (runPass trFailPlusTwo wjobMulti3).job.state = SmsState.partialSend :=
  (claim_C1.1 (some wcfg) trFailPlusTwo wjobMulti3 (runPass trFailPlusTwo wjobMulti3)
      (by rfl) (by decide)).2.2
    ⟨String.data "+1", by decide, by decide⟩
    ⟨String.data "+2", by decide, by decide⟩

/-- Claim C3 (amended): a pass over 3 effective recipients in which the
transport fails for exactly one yields `sent_count = 2`, `failed_count = 1`,
state `partialSend`, every recipient attempted exactly once — but exactly 2
`sms.log` rows, not 3: `_send_to_twilio` writes one batch row for the
successes and one for the failures, not one row per attempt. -/
theorem claim_C3 (config : Option TwilioConfig) (tr : List Char → Outcome) (job : SmsJob)
    (hcfg : configOk config)
    (h3 : (effectiveRecipients job).length = 3)
    (hone : (effectiveRecipients job).countP (fun n => !(tr n).isOk) = 1) :
    ∃ res, sendToTwilio config tr job = Except.ok res ∧
      res.job.sent_count = 2 ∧ res.job.failed_count = 1 ∧
      res.job.state = SmsState.partialSend ∧ res.logs.length = 2 ∧
      List.Perm (res.sentNumbers ++ res.failedNumbers) (effectiveRecipients job) := by
  have h1 : ¬(job.recipient_type = RecipientType.single ∧ job.recipient_single = []) := by
    intro hx
    simp [effectiveRecipients, hx.1] at h3
  have h2 : ¬(job.recipient_type = RecipientType.multi ∧ job.recipient_multi = []) := by
    intro hx
    have hz : numbersToSend ([] : List Char) = [] := rfl
    rw [effectiveRecipients] at h3
    rw [hx.1] at h3
    rw [hx.2, hz] at h3
    simp at h3
  refine ⟨runPass tr job, sendToTwilio_ok_of config tr job hcfg h1 h2, ?_, ?_, ?_, ?_, ?_⟩
  all_goals
    rw [List.countP_eq_length_filter] at hone
  · rw [runPass_sent_count, runPass_sentNumbers]
    have := length_filter_add_length_filter_not (fun n => (tr n).isOk) (effectiveRecipients job)
    omega
  · rw [runPass_failed_count, runPass_failedNumbers]
    exact hone
  · rw [runPass_state, runPass_sentNumbers, runPass_failedNumbers]
    have := length_filter_add_length_filter_not (fun n => (tr n).isOk) (effectiveRecipients job)
    have hsc : ((effectiveRecipients job).filter (fun n => (tr n).isOk)).length = 2 := by omega
    rw [hsc, hone]
    rfl
  · rw [runPass_logs_length, runPass_sentNumbers, runPass_failedNumbers]
    have := length_filter_add_length_filter_not (fun n => (tr n).isOk) (effectiveRecipients job)
    have hsne : (effectiveRecipients job).filter (fun n => (tr n).isOk) ≠ [] := by
      intro hnil
      rw [hnil] at this
      simp only [List.length_nil, Nat.zero_add] at this
      omega
    have hfne : (effectiveRecipients job).filter (fun n => !(tr n).isOk) ≠ [] := by
      intro hnil
      rw [hnil] at hone
      simp at hone
    rw [if_neg hsne, if_neg hfne]
  · rw [runPass_sentNumbers, runPass_failedNumbers]
    exact List.filter_append_perm _ _

/-- Counterexample to C3 as stated: at the concrete 3-recipient run with one
rejected number the counts and state are as claimed, but only 2 `sms.log`
rows are created (one per status batch), not the claimed 3. -/
theorem claim_C3_counterexample :
    (sendToTwilio (some wcfg) trFailPlusTwo wjobMulti3).map
        (fun r => (r.job.sent_count, r.job.failed_count, r.job.state, r.logs.length))
      = Except.ok (2, 1, SmsState.partialSend, 2) ∧ (2 : Nat) ≠ 3 := by
  constructor
  · rfl
  · decide

/-- Witness for C3 (amended) at the concrete 3-recipient run. -/
theorem claim_C3_witness :
    ∃ res, sendToTwilio (some wcfg) trFailPlusTwo wjobMulti3 = Except.ok res ∧
      res.job.sent_count = 2 ∧ res.job.failed_count = 1 ∧
      res.job.state = SmsState.partialSend ∧ res.logs.length = 2 ∧
      List.Perm (res.sentNumbers ++ res.failedNumbers) (effectiveRecipients wjobMulti3) :=
  claim_C3 (some wcfg) trFailPlusTwo wjobMulti3
    ⟨wcfg, rfl, rfl, rfl⟩ (by decide) (by decide)

/-- Claim C9 (amended): only an empty raw recipient field raises the blocking
pre-flight `UserError`; a non-empty multi input that splits to zero entries
(for example only commas and blanks) does not escalate — the pass runs over
zero recipients and the job is marked `failed` with both counters 0 and no
`sms.log` rows. -/
theorem claim_C9 (config : Option TwilioConfig) (tr : List Char → Outcome) (job : SmsJob)
    (hcfg : configOk config) (hty : job.recipient_type = RecipientType.multi) :
    (job.recipient_multi = [] →
      sendToTwilio config tr job = Except.error UserError.enterMobileNumbers) ∧
    (job.recipient_multi ≠ [] → numbersToSend job.recipient_multi = [] →
      sendToTwilio config tr job = Except.ok (runPass tr job) ∧
      (runPass tr job).job.state = SmsState.failed ∧
      (runPass tr job).job.sent_count = 0 ∧
      (runPass tr job).job.failed_count = 0 ∧
      (runPass tr job).logs = []) := by
  obtain ⟨cfg, rfl, hconn, hcred⟩ := hcfg
  constructor
  · intro hmt
    simp [sendToTwilio, hconn, hcred, hty, hmt]
  · intro hne hzero
    have hrec : effectiveRecipients job = [] := by
      rw [effectiveRecipients, hty, hzero]
    refine ⟨sendToTwilio_ok_of (some cfg) tr job ⟨cfg, rfl, hconn, hcred⟩
      (fun hx => by rw [hx.1] at hty; cases hty) (fun hx => hne hx.2), ?_, ?_, ?_, ?_⟩
    · rw [runPass_state, runPass_sentNumbers, runPass_failedNumbers, hrec]
      rfl
    · rw [runPass_sent_count, runPass_sentNumbers, hrec]
      rfl
    · rw [runPass_failed_count, runPass_failedNumbers, hrec]
      rfl
    · simp [runPass, hrec, sendLoop]

/-- Counterexample to C9 as stated: the input consisting of a comma and
blanks splits to zero recipients, yet `_send_to_twilio` raises nothing — it
completes, creates no log row, and marks the job `failed` with counts 0/0. -/
theorem claim_C9_counterexample :
    effectiveRecipients wjobCommaOnly = [] ∧
    (sendToTwilio (some wcfg) trOk wjobCommaOnly).map
        (fun r => (r.job.state, r.job.sent_count, r.job.failed_count, r.logs.length))
      = Except.ok (SmsState.failed, 0, 0, 0) := by
  constructor
  · rfl
  · rfl

/-- Witness for C9 (amended) at the comma-only input. -/
theorem claim_C9_witness :
    sendToTwilio (some wcfg) trOk wjobCommaOnly = Except.ok (runPass trOk wjobCommaOnly) ∧
    (runPass trOk wjobCommaOnly).job.state = SmsState.failed ∧
    (runPass trOk wjobCommaOnly).job.sent_count = 0 ∧
    (runPass trOk wjobCommaOnly).job.failed_count = 0 ∧
    (runPass trOk wjobCommaOnly).logs = [] :=
  (claim_C9 (some wcfg) trOk wjobCommaOnly ⟨wcfg, rfl, rfl, rfl⟩ rfl).2
    (by decide) (by decide)

/-- Claim C4 (amended): a pre-flight configuration failure (absent record,
not connected, or blank credentials) is surfaced immediately as a blocking
`UserError` on the direct send path, where the job keeps its prior state,
counts and logs (the error is raised before anything is written); but when
the job is executed by the scheduler sweep, the exception is caught and the
job is marked `failed` — counts and logs still unchanged. -/
theorem claim_C4 (config : Option TwilioConfig) (tr : List Char → Outcome)
    (job : SmsJob) (now : Int) (hbad : configBad config) :
    (∃ e, sendToTwilio config tr job = Except.error e) ∧
    (cronSelected now job = true →
      cronStep config tr now job = ({ job with state := SmsState.failed }, [])) := by
  have herr : ∃ e, sendToTwilio config tr job = Except.error e := by
    cases config with
    | none => exact ⟨UserError.configureFirst, rfl⟩
    | some cfg =>
      simp only [configBad] at hbad
      cases hbad with
      | inl hconn =>
        exact ⟨UserError.configureFirst, by simp [sendToTwilio, hconn]⟩
      | inr hcred =>
        by_cases hconn : cfg.connection_status = ConnStatus.connected
        · exact ⟨UserError.missingCredentials, by simp [sendToTwilio, hconn, hcred]⟩
        · exact ⟨UserError.configureFirst, by simp [sendToTwilio, hconn]⟩
  refine ⟨herr, ?_⟩
  intro hsel
  obtain ⟨e, he⟩ := herr
  simp [cronStep, hsel, he]

/-- Counterexample to C4 as stated: a due scheduled job executed by the
sweep against a disconnected configuration does not stay in its prior state
`scheduled` — the sweep catches the pre-flight error and marks it `failed`. -/
theorem claim_C4_counterexample :
    wjobSchedDue.state = SmsState.scheduled ∧
    cronStep (some wcfgDisconnected) trOk 10 wjobSchedDue
      = ({ wjobSchedDue with state := SmsState.failed }, []) := by
  constructor
  · rfl
  · rfl

/-- Witness for C4 (amended) at the disconnected configuration. -/
theorem claim_C4_witness :
    (∃ e, sendToTwilio (some wcfgDisconnected) trOk wjobSchedDue = Except.error e) ∧
    (cronStep (some wcfgDisconnected) trOk 10 wjobSchedDue
      = ({ wjobSchedDue with state := SmsState.failed }, [])) := by
  have h := claim_C4 (some wcfgDisconnected) trOk wjobSchedDue 10 (by left; decide)
  exact ⟨h.1, h.2 (by decide)⟩

/-- Claim C5: the sweep selects exactly the jobs in state `scheduled` whose
schedule time is at most `now` (boundary inclusive): a job due one second
before `now` is selected and executed, one due one second after is not, and
an unselected job is untouched by the sweep step. -/
theorem claim_C5 (now : Int) (j : SmsJob) :
    (cronSelected now j = true ↔
      j.state = SmsState.scheduled ∧ ∃ t, j.schedule_datetime = some t ∧ t ≤ now) ∧
    (j.state = SmsState.scheduled → j.schedule_datetime = some (now - 1) →
      cronSelected now j = true) ∧
    (j.schedule_datetime = some (now + 1) → cronSelected now j = false) ∧
    (cronSelected now j = false → ∀ config tr,
      cronStep config tr now j = (j, [])) := by
  refine ⟨?_, ?_, ?_, ?_⟩
  · cases hs : j.schedule_datetime with
    | none => simp [cronSelected, hs]
    | some t => simp [cronSelected, hs]
  · intro hst hs
    simp [cronSelected, hst, hs]
  · intro hs
    simp [cronSelected, hs]
  · intro hsel config tr
    simp [cronStep, hsel]

/-- Witness for C5 at the concrete boundary `now = 10`, schedules 9 and 11. -/
theorem claim_C5_witness :
    cronSelected 10 wjobSchedDue = true ∧ cronSelected 10 wjobSchedLate = false := by
  constructor
  · exact (claim_C5 10 wjobSchedDue).2.1 rfl (by decide)
  · exact (claim_C5 10 wjobSchedLate).2.2.1 (by decide)

theorem cronStep_of_not_selected (config : Option TwilioConfig)
    (tr : List Char → Outcome) (now : Int) (j : SmsJob)
    (h : cronSelected now j = false) : cronStep config tr now j = (j, []) := by
  simp [cronStep, h]

theorem classifySms_ne_scheduled (sc fc : Nat) :
    classifySms sc fc ≠ SmsState.scheduled := by
  unfold classifySms
  split_ifs <;> simp

theorem cronStep_not_selected_after (config : Option TwilioConfig)
    (tr : List Char → Outcome) (now : Int) (j : SmsJob) :
    cronSelected now ((cronStep config tr now j).1) = false := by
  by_cases hsel : cronSelected now j
  · simp only [cronStep, hsel, if_true]
    cases hst : sendToTwilio config tr j with
    | ok res =>
      have := sendToTwilio_ok_inv config tr j res hst
      subst this
      simp only [cronSelected]
      rw [runPass_state]
      have := classifySms_ne_scheduled (runPass tr j).sentNumbers.length
        (runPass tr j).failedNumbers.length
      simp [this]
    | error e => simp [cronSelected]
  · simp only [cronStep, hsel, if_false]
    simp only [Bool.not_eq_true] at hsel
    exact hsel

/-- Claim C6: running the sweep twice in immediate succession with no time
advance creates no `sms.log` rows in the second pass at all: every job the
first pass executed ends in a terminal state (`sent`, `partialSend` or
`failed`, never `scheduled`), and jobs it skipped remain unselected, so the
second sweep re-executes nothing. -/
theorem claim_C6 (config : Option TwilioConfig) (tr : List Char → Outcome)
    (now : Int) (jobs : List SmsJob) :
    (cronSweep config tr now (cronSweep config tr now jobs).1).2 = [] := by
  induction jobs with
  | nil => rfl
  | cons j rest ih =>
    have hstep : cronStep config tr now ((cronStep config tr now j).1)
        = ((cronStep config tr now j).1, []) :=
      cronStep_of_not_selected config tr now _
        (cronStep_not_selected_after config tr now j)
    simp only [cronSweep]
    rw [hstep]
    simpa using ih

theorem listStartsWith_plus_cons (x : List Char) :
    listStartsWith ['+'] ('+' :: x) = true := by
  simp [listStartsWith]

/-- Claim C7: for every non-empty raw number and (possibly empty) country
code, normalization of `_send_one` first strips spaces, hyphens and
parentheses (`cleanMobile`), then passes a `+`-leading number through
unchanged, prefixes only `+` when the cleaned number starts with the country
code digits, and otherwise prefixes `+` and the country code — so the
successful result always starts with `+` and is never empty. -/
theorem claim_C7 (raw cc : List Char) (hne : raw ≠ []) :
    ∃ s, normalizeNumber raw cc = some s ∧
      listStartsWith ['+'] s = true ∧ s ≠ [] ∧
      (listStartsWith ['+'] (cleanMobile raw) = true → s = cleanMobile raw) ∧
      (listStartsWith ['+'] (cleanMobile raw) = false →
        (!cc.isEmpty && listStartsWith cc (cleanMobile raw)) = true →
        s = '+' :: cleanMobile raw) ∧
      (listStartsWith ['+'] (cleanMobile raw) = false →
        (!cc.isEmpty && listStartsWith cc (cleanMobile raw)) = false →
        s = '+' :: (cc ++ cleanMobile raw)) := by
  refine ⟨formatNumber (cleanMobile raw) cc, ?_, ?_, ?_, ?_, ?_, ?_⟩
  · simp [normalizeNumber, hne]
  · unfold formatNumber
    split_ifs with h1 h2
    · exact h1
    · exact listStartsWith_plus_cons _
    · exact listStartsWith_plus_cons _
  · unfold formatNumber
    split_ifs with h1 h2
    · intro hnil
      rw [hnil] at h1
      simp [listStartsWith] at h1
    · simp
    · simp
  · intro hplus
    unfold formatNumber
    rw [if_pos hplus]
  · intro hplus hccp
    unfold formatNumber
    rw [if_neg (by simp [hplus]), if_pos hccp]
  · intro hplus hccp
    unfold formatNumber
    rw [if_neg (by simp [hplus]), if_neg (by simp [hccp])]

/-- Witness for C7 at a concrete raw number with spaces and a hyphen. -/
theorem claim_C7_witness :
    ∃ s, normalizeNumber (String.data " 98-76") (String.data "91") = some s ∧
      listStartsWith ['+'] s = true ∧ s ≠ [] ∧
      (listStartsWith ['+'] (cleanMobile (String.data " 98-76")) = true →
        s = cleanMobile (String.data " 98-76")) ∧
      (listStartsWith ['+'] (cleanMobile (String.data " 98-76")) = false →
        (!(String.data "91").isEmpty
          && listStartsWith (String.data "91") (cleanMobile (String.data " 98-76"))) = true →
        s = '+' :: cleanMobile (String.data " 98-76")) ∧
      (listStartsWith ['+'] (cleanMobile (String.data " 98-76")) = false →
        (!(String.data "91").isEmpty
          && listStartsWith (String.data "91") (cleanMobile (String.data " 98-76"))) = false →
        s = '+' :: (String.data "91" ++ cleanMobile (String.data " 98-76"))) :=
  claim_C7 (String.data " 98-76") (String.data "91") (by decide)

theorem length_lt_of_dropWhile_cons {p : Char → Bool} {rest tail : List Char} {d : Char}
    (hd : rest.dropWhile p = d :: tail) : tail.length < rest.length := by
  have h1 : (rest.dropWhile p).length ≤ rest.length :=
    ((List.dropWhile_suffix p).sublist).length_le
  rw [hd] at h1
  simp only [List.length_cons] at h1
  omega

theorem takeWhile_append_all {p : Char → Bool} {l1 : List Char} (l2 : List Char)
    (h : ∀ a ∈ l1, p a = true) :
    (l1 ++ l2).takeWhile p = l1 ++ l2.takeWhile p := by
  induction l1 with
  | nil => simp
  | cons a l ih =>
    simp [List.cons_append, List.takeWhile_cons, h a (by simp),
      ih (fun x hx => h x (by simp [hx]))]

theorem dropWhile_append_all {p : Char → Bool} {l1 : List Char} (l2 : List Char)
    (h : ∀ a ∈ l1, p a = true) :
    (l1 ++ l2).dropWhile p = l2.dropWhile p := by
  induction l1 with
  | nil => simp
  | cons a l ih =>
    simp only [List.cons_append, List.dropWhile_cons, h a (by simp)]
    exact ih (fun x hx => h x (by simp [hx]))

theorem renderFuel_nil (ctx : List (String × String)) (fuel : Nat) :
    renderFuel ctx fuel [] = Except.ok [] := by
  cases fuel <;> rfl

theorem renderFuel_irrel (ctx : List (String × String)) :
    ∀ (f1 f2 : Nat) (t : List Char), t.length ≤ f1 → t.length ≤ f2 →
      renderFuel ctx f1 t = renderFuel ctx f2 t := by
  intro f1
  induction f1 with
  | zero =>
    intro f2 t h1 _
    have ht : t = [] := List.eq_nil_of_length_eq_zero (Nat.le_zero.mp h1)
    subst ht
    rw [renderFuel_nil, renderFuel_nil]
  | succ f1 ih =>
    intro f2 t h1 h2
    cases t with
    | nil => rw [renderFuel_nil, renderFuel_nil]
    | cons c rest =>
      cases f2 with
      | zero => simp at h2
      | succ f2 =>
        simp only [List.length_cons] at h1 h2
        by_cases hc : c = lbrace
        · subst hc
          simp only [renderFuel, if_pos rfl]
          cases hd : rest.dropWhile (fun d => !(d == rbrace)) with
          | nil => simp
          | cons d tail =>
            cases hlk : lookupCtx (String.mk (rest.takeWhile (fun d => !(d == rbrace)))) ctx with
            | none => simp
            | some v =>
              have ht := length_lt_of_dropWhile_cons hd
              simp [ih f2 tail (by omega) (by omega)]
        · simp only [renderFuel, if_neg hc]
          rw [ih f2 rest (by omega) (by omega)]

theorem renderFuel_cases (ctx : List (String × String)) :
    ∀ (fuel : Nat) (t : List Char), t.length ≤ fuel → wellFormedFuel fuel t = true →
    (∀ out, renderFuel ctx fuel t = Except.ok out →
      ∀ p ∈ placeholdersFuel fuel t, (lookupCtx p ctx).isSome = true) ∧
    (∀ e, renderFuel ctx fuel t = Except.error e →
      ∃ k, e = RenderError.missingKey k ∧ k ∈ placeholdersFuel fuel t ∧
        lookupCtx k ctx = none) := by
  intro fuel
  induction fuel with
  | zero =>
    intro t hlen _
    have ht : t = [] := List.eq_nil_of_length_eq_zero (Nat.le_zero.mp hlen)
    subst ht
    refine ⟨fun out _ p hp => absurd hp (by simp [placeholdersFuel]), fun e he => ?_⟩
    rw [renderFuel_nil] at he
    cases he
  | succ fuel ih =>
    intro t hlen hwf
    cases t with
    | nil =>
      refine ⟨fun out _ p hp => absurd hp (by simp [placeholdersFuel]), fun e he => ?_⟩
      rw [renderFuel_nil] at he
      cases he
    | cons c rest =>
      simp only [List.length_cons] at hlen
      have hrest : rest.length ≤ fuel := by omega
      by_cases hc : c = lbrace
      · subst hc
        cases hd : rest.dropWhile (fun d => !(d == rbrace)) with
        | nil =>
          rw [show wellFormedFuel (fuel + 1) (lbrace :: rest) = false by
            simp [wellFormedFuel, hd]] at hwf
          cases hwf
        | cons d tail =>
          have htail : tail.length ≤ fuel :=
            le_of_lt (lt_of_lt_of_le (length_lt_of_dropWhile_cons hd) hrest)
          have hwf' : wellFormedFuel fuel tail = true := by
            simpa [wellFormedFuel, hd] using hwf
          have hih := ih tail htail hwf'
          have hph : placeholdersFuel (fuel + 1) (lbrace :: rest)
              = String.mk (rest.takeWhile (fun d => !(d == rbrace)))
                :: placeholdersFuel fuel tail := by
            simp [placeholdersFuel, hd]
          refine ⟨?_, ?_⟩
          · intro out hout p hp
            simp only [renderFuel, if_pos rfl, hd] at hout
            rw [hph] at hp
            cases hlk : lookupCtx (String.mk (rest.takeWhile (fun d => !(d == rbrace)))) ctx with
            | none =>
              rw [hlk] at hout
              cases hout
            | some v =>
              rw [hlk] at hout
              cases hp with
              | head =>
                rw [hlk]
                rfl
              | tail _ hpm =>
                cases hre : renderFuel ctx fuel tail with
                | error e =>
                  rw [hre] at hout
                  simp [Except.map] at hout
                | ok o => exact hih.1 o hre p hpm
          · intro e he
            simp only [renderFuel, if_pos rfl, hd] at he
            cases hlk : lookupCtx (String.mk (rest.takeWhile (fun d => !(d == rbrace)))) ctx with
            | none =>
              rw [hlk] at he
              refine ⟨String.mk (rest.takeWhile (fun d => !(d == rbrace))), ?_, ?_, hlk⟩
              · injection he with he2
                exact he2.symm
              · rw [hph]
                exact List.mem_cons_self _ _
            | some v =>
              rw [hlk] at he
              cases hre : renderFuel ctx fuel tail with
              | ok o =>
                rw [hre] at he
                simp [Except.map] at he
              | error e2 =>
                rw [hre] at he
                simp only [Except.map] at he
                injection he with he2
                obtain ⟨k, hk, hkm, hkn⟩ := hih.2 e2 hre
                refine ⟨k, by rw [← he2, hk], ?_, hkn⟩
                rw [hph]
                exact List.mem_cons_of_mem _ hkm
      · have hwf' : wellFormedFuel fuel rest = true := by
          simpa [wellFormedFuel, hc] using hwf
        have hih := ih rest hrest hwf'
        have hph : placeholdersFuel (fuel + 1) (c :: rest) = placeholdersFuel fuel rest := by
          simp [placeholdersFuel, hc]
        refine ⟨?_, ?_⟩
        · intro out hout p hp
          rw [hph] at hp
          simp only [renderFuel, if_neg hc] at hout
          cases hre : renderFuel ctx fuel rest with
          | error e =>
            rw [hre] at hout
            simp [Except.map] at hout
          | ok o => exact hih.1 o hre p hp
        · intro e he
          simp only [renderFuel, if_neg hc] at he
          cases hre : renderFuel ctx fuel rest with
          | ok o =>
            rw [hre] at he
            simp [Except.map] at he
          | error e2 =>
            rw [hre] at he
            simp only [Except.map] at he
            injection he with he2
            obtain ⟨k, hk, hkm, hkn⟩ := hih.2 e2 hre
            refine ⟨k, by rw [← he2, hk], ?_, hkn⟩
            rw [hph]
            exact hkm

/-- Claim C8: if every placeholder of a well-formed template is a context
key, rendering succeeds; if some placeholder is missing, rendering fails
with an error naming a missing key; a bound placeholder is substituted by
its value; a missing key makes the production path (`_prepare_sms_data`)
fail with that error, while the preview path degrades to an inline error
string naming the key — both through the same `render` primitive. -/
theorem claim_C8 (t : List Char) (ctx : List (String × String)) :
    (wellFormed t = true → (∀ p ∈ placeholders t, (lookupCtx p ctx).isSome = true) →
      ∃ out, render t ctx = Except.ok out) ∧
    (wellFormed t = true → ∀ p ∈ placeholders t, lookupCtx p ctx = none →
      ∃ k, render t ctx = Except.error (RenderError.missingKey k) ∧
        k ∈ placeholders t ∧ lookupCtx k ctx = none) ∧
    (∀ (name v : String) (rest : List Char), rbrace ∉ name.data →
      lookupCtx name ctx = some v →
      render (lbrace :: (name.data ++ rbrace :: rest)) ctx
        = (render rest ctx).map (fun out => v.data ++ out)) ∧
    (∀ k, t ≠ [] → render t sampleData = Except.error (RenderError.missingKey k) →
      computePreviewMessage t
        = Except.ok ((String.data "Error in template: Invalid placeholder ") ++ k.data)) ∧
    (prepareSmsData t ctx = render t ctx) := by
  refine ⟨?_, ?_, ?_, ?_, rfl⟩
  · intro hwf hcov
    cases hre : render t ctx with
    | ok out => exact ⟨out, rfl⟩
    | error e =>
      obtain ⟨k, _, hkm, hkn⟩ :=
        ((renderFuel_cases ctx t.length t le_rfl hwf).2) e hre
      have := hcov k hkm
      rw [hkn] at this
      cases this
  · intro hwf p hp hnone
    cases hre : render t ctx with
    | ok out =>
      have := ((renderFuel_cases ctx t.length t le_rfl hwf).1) out hre p hp
      rw [hnone] at this
      cases this
    | error e =>
      obtain ⟨k, hk, hkm, hkn⟩ :=
        ((renderFuel_cases ctx t.length t le_rfl hwf).2) e hre
      refine ⟨k, ?_, hkm, hkn⟩
      rw [hk]
  · intro name v rest hnotin hlk
    have hall : ∀ a ∈ name.data, (fun d => !(d == rbrace)) a = true := by
      intro a ha
      have hne2 : ¬(a = rbrace) := fun habs => hnotin (habs ▸ ha)
      simp [hne2]
    have hlk' : lookupCtx (String.mk name.data) ctx = some v := hlk
    unfold render
    simp only [renderFuel, List.length_cons, if_pos rfl]
    rw [dropWhile_append_all _ hall, takeWhile_append_all _ hall]
    rw [show (rbrace :: rest).dropWhile (fun d => !(d == rbrace)) = rbrace :: rest by
      simp [List.dropWhile_cons]]
    rw [show (rbrace :: rest).takeWhile (fun d => !(d == rbrace)) = [] by
      simp [List.takeWhile_cons]]
    rw [show name.data ++ ([] : List Char) = name.data from List.append_nil _]
    rw [hlk']
    simp only [if_true]
    refine congrArg _ (renderFuel_irrel ctx _ _ rest ?_ le_rfl)
    simp only [List.length_append, List.length_cons]
    omega
  · intro k hne herr
    simp [computePreviewMessage, hne, herr]

/-- Witness for C8 at the concrete template with both placeholders bound,
and at the sample-preview path with a template whose placeholder is unbound. -/
theorem claim_C8_witness :
    (∃ out, render wtemplate wctx = Except.ok out) ∧
    (∃ k, render (String.data "Oops {customer}") wctx
        = Except.error (RenderError.missingKey k) ∧
      k ∈ placeholders (String.data "Oops {customer}") ∧ lookupCtx k wctx = none) := by
  constructor
  · exact (claim_C8 wtemplate wctx).1 (by decide) (by decide)
  · exact (claim_C8 (String.data "Oops {customer}") wctx).2.1 (by decide)
      "customer" (by decide) (by decide)

theorem sendOrderConfirmation_already_sent (cfgs : List SaleSmsConfig)
    (twc : Option TwilioConfig) (tr : Outcome) (o : SaleOrder)
    (h : o.sms_sent = true) :
    sendOrderConfirmationSms cfgs twc tr o = ⟨false, o, getActiveConfig cfgs, [], 0⟩ := by
  unfold sendOrderConfirmationSms
  cases hga : getActiveConfig cfgs with
  | none => rfl
  | some sc => simp [h]

theorem sendOrderConfirmation_monotone (cfgs : List SaleSmsConfig)
    (twc : Option TwilioConfig) (tr : Outcome) (o : SaleOrder) :
    (sendOrderConfirmationSms cfgs twc tr o).order.sms_sent
      = (o.sms_sent || (sendOrderConfirmationSms cfgs twc tr o).success) := by
  unfold sendOrderConfirmationSms
  cases getActiveConfig cfgs with
  | none => simp
  | some sc =>
    dsimp only
    by_cases hs : o.sms_sent = true
    · simp [hs]
    · have hs0 : o.sms_sent = false := by simpa using hs
      rw [if_neg (by simp [hs0])]
      by_cases hmp : o.partner_mobile = [] ∧ o.partner_phone = []
      · rw [if_pos hmp]
        simp [hs0]
      · rw [if_neg hmp]
        cases twc with
        | none => simp [hs0]
        | some tc =>
          dsimp only
          by_cases hconn : tc.connection_status ≠ ConnStatus.connected
          · rw [if_pos hconn]
            simp [hs0]
          · rw [if_neg hconn]
            by_cases hcred : credsMissing tc = true
            · rw [if_pos hcred]
              simp [hs0]
            · rw [if_neg hcred]
              cases hpre : prepareSmsData sc.message_template o.ctx with
              | error e => simp [hs0]
              | ok body =>
                cases tr with
                | ok sid => simp
                | rejected m => simp [hs0]
                | exn m => simp [hs0]

theorem repeatConfirm_blocked (cfgs : List SaleSmsConfig) (twc : Option TwilioConfig)
    (trs : Nat → Outcome) : ∀ (n : Nat) (o : SaleOrder), o.sms_sent = true →
    repeatConfirm cfgs twc trs n o = (o, 0) := by
  intro n
  induction n with
  | zero => intro o _; rfl
  | succ n ih =>
    intro o h
    simp only [repeatConfirm]
    rw [sendOrderConfirmation_already_sent cfgs twc (trs n) o h]
    simp [ih o h]

theorem repeatConfirm_le_one (cfgs : List SaleSmsConfig) (twc : Option TwilioConfig)
    (trs : Nat → Outcome) : ∀ (n : Nat) (o : SaleOrder),
    (repeatConfirm cfgs twc trs n o).2 ≤ 1 := by
  intro n
  induction n with
  | zero => intro o; simp [repeatConfirm]
  | succ n ih =>
    intro o
    simp only [repeatConfirm]
    by_cases hsucc : (sendOrderConfirmationSms cfgs twc (trs n) o).success = true
    · have hmono := sendOrderConfirmation_monotone cfgs twc (trs n) o
      rw [hsucc] at hmono
      have hsent : (sendOrderConfirmationSms cfgs twc (trs n) o).order.sms_sent = true := by
        rw [hmono]
        simp
      rw [repeatConfirm_blocked cfgs twc trs n _ hsent]
      simp [hsucc]
    · have hf : (sendOrderConfirmationSms cfgs twc (trs n) o).success = false := by
        simpa using hsucc
      simp only [hf, if_false]
      simpa using ih ((sendOrderConfirmationSms cfgs twc (trs n) o).order)

/-- Claim C10: an order whose `sms_sent` flag is set makes the confirmation
send return `False` with no HTTP call, no `sms.log` row and no counter
change; repeated confirmations therefore perform at most one successful
send (a success immediately sets the flag); the confirmation send never
clears the flag, and the explicit manual resend action is the operation
that clears it (for confirmed orders) before re-running the same send. -/
theorem claim_C10 :
    (∀ (cfgs : List SaleSmsConfig) (twc : Option TwilioConfig) (tr : Outcome)
       (o : SaleOrder), o.sms_sent = true →
       sendOrderConfirmationSms cfgs twc tr o = ⟨false, o, getActiveConfig cfgs, [], 0⟩) ∧
    (∀ (cfgs : List SaleSmsConfig) (twc : Option TwilioConfig) (trs : Nat → Outcome)
       (n : Nat) (o : SaleOrder), (repeatConfirm cfgs twc trs n o).2 ≤ 1) ∧
    (∀ (cfgs : List SaleSmsConfig) (twc : Option TwilioConfig) (tr : Outcome)
       (o : SaleOrder), (sendOrderConfirmationSms cfgs twc tr o).order.sms_sent
         = (o.sms_sent || (sendOrderConfirmationSms cfgs twc tr o).success)) ∧
    (∀ (cfgs : List SaleSmsConfig) (twc : Option TwilioConfig) (tr : Outcome)
       (o : SaleOrder), o.order_state = OrderState.sale ∨ o.order_state = OrderState.done →
       actionSendSmsManually cfgs twc tr o
         = Except.ok (sendOrderConfirmationSms cfgs twc tr { o with sms_sent := false })) := by
  refine ⟨sendOrderConfirmation_already_sent, repeatConfirm_le_one,
    sendOrderConfirmation_monotone, ?_⟩
  intro cfgs twc tr o hst
  unfold actionSendSmsManually
  rw [if_neg]
  intro hx
  cases hst with
  | inl h1 => exact hx.1 h1
  | inr h2 => exact hx.2 h2

/-- Witness for C10: the flagged order is returned unchanged with no side
effects, and the manual action on a confirmed order re-sends with the flag
cleared. -/
theorem claim_C10_witness :
    sendOrderConfirmationSms [wsmsCfg] (some wcfg) (Outcome.ok "SM1") worderSent
      = ⟨false, worderSent, getActiveConfig [wsmsCfg], [], 0⟩ ∧
    actionSendSmsManually [wsmsCfg] (some wcfg) (Outcome.ok "SM1") worder
      = Except.ok (sendOrderConfirmationSms [wsmsCfg] (some wcfg) (Outcome.ok "SM1")
          { worder with sms_sent := false }) :=
  ⟨claim_C10.1 [wsmsCfg] (some wcfg) (Outcome.ok "SM1") worderSent rfl,
   claim_C10.2.2.2 [wsmsCfg] (some wcfg) (Outcome.ok "SM1") worder (Or.inl rfl)⟩

end TwilioGateway
